import Mathlib

/-!
Shallow embedding of the capture/stitch pipeline of
`src/utils/web_capture.py` (class `WebCapture`), of the DOM matching rule
of `src/utils/dom_extractor.py` (class `DOMExtractor`), and of the
color-vision-deficiency simulator of `src/models/colorblind_simulator.py`
(class `ColorBlindSimulator`), together with theorems settling the spec
claims about them.

The browser is external to the repository; its observable behaviour enters
the embedding as explicit environment parameters: `offs` (the scroll offset
actually achieved when a given offset is requested, Python
`window.pageYOffset` after `window.scrollTo`) and `shot` (the viewport
screenshot taken at a given loop iteration, Python
`get_screenshot_as_png`).
-/

namespace WebCapture

/-- One raw bitmap (a PIL image) abstracted to its dimensions, which is all
`capture_full_page_screenshot` inspects (`img.width`, `img.height`). -/
structure Img where
  width : Nat
  height : Nat
deriving DecidableEq

/-- Line 157 of `src/utils/web_capture.py`:
`scroll_steps = (total_height // viewport_height) + 1` (floor division). -/
def scrollStepsRaw (totalHeight viewportHeight : Nat) : Nat :=
  totalHeight / viewportHeight + 1

/-- Lines 157-161: the planned iteration bound after the optional clamp.
Python line 160 reads `if max_scroll and scroll_steps > max_scroll:` —
`max_scroll` is an arbitrary Python int defaulting to `None`, and the
truthiness test skips the clamp both for `None` and for `0`, so the cap is
modelled as `Option Int`. -/
def plannedSteps (totalHeight viewportHeight : Nat) (maxScroll : Option Int) : Int :=
  let s : Int := scrollStepsRaw totalHeight viewportHeight
  match maxScroll with
  | none => s
  | some m => if m ≠ 0 ∧ s > m then m else s

/-- Lines 164-188: the scroll-and-capture loop. `rem` is the remaining
iteration budget (Python `range(scroll_steps)`), `i` the current iteration
index, `last` the Python variable `last_height` (initially `0`). At each
iteration the loop scrolls to `i * viewport_height`, reads the achieved
offset `offs (i * viewportHeight)`, breaks when that offset equals the
previously recorded one with `i > 0` (line 177), and otherwise records the
offset and appends the screenshot `shot i`. -/
def captureLoop (viewportHeight : Nat) (offs : Nat → Nat) (shot : Nat → Img) :
    Nat → Nat → Nat → List Img
  | 0, _, _ => []
  | rem + 1, i, last =>
    let cur := offs (i * viewportHeight)
    if cur = last ∧ 0 < i then []
    else shot i :: captureLoop viewportHeight offs shot rem (i + 1) cur

/-- The full section list produced by the loop (Python `screenshots` as it
stands at line 190). A nonpositive planned bound gives an empty `range`,
hence `Int.toNat`. -/
def screenshots (totalHeight viewportHeight : Nat) (maxScroll : Option Int)
    (offs : Nat → Nat) (shot : Nat → Img) : List Img :=
  captureLoop viewportHeight offs shot
    (plannedSteps totalHeight viewportHeight maxScroll).toNat 0 0

/-- One paste into the composite canvas (lines 200-206): the clipped region
`img.crop((0, 0, img.width, paste_height))` pasted at `(0, y_offset)`. -/
structure Paste where
  yOffset : Nat
  pasteHeight : Nat
  sectionWidth : Nat
deriving DecidableEq

/-- The composite image built at lines 192-206: its allocated dimensions
and the ordered paste operations performed into it. -/
structure Composite where
  finalWidth : Nat
  finalHeight : Nat
  pastes : List Paste
deriving DecidableEq

/-- Lines 200-206: `for i, img in enumerate(screenshots)` — paste section
`i` at `y_offset = i * viewport_height` when `y_offset < final_height`,
clipped to `paste_height = min(img.height, final_height - y_offset)`. -/
def pasteOps (viewportHeight finalHeight : Nat) : Nat → List Img → List Paste
  | _, [] => []
  | i, img :: rest =>
    let y := i * viewportHeight
    (if y < finalHeight then
      [⟨y, min img.height (finalHeight - y), img.width⟩]
    else []) ++ pasteOps viewportHeight finalHeight (i + 1) rest

/-- Lines 191-217: combine the captured sections. With no sections the
Python code logs and returns `None` (line 217); otherwise it allocates a
canvas of width `screenshots[0].width` and height
`min(total_height, viewport_height * len(screenshots))` and pastes every
section into it. -/
def stitch (totalHeight viewportHeight : Nat) (shots : List Img) :
    Option Composite :=
  match shots with
  | [] => none
  | first :: rest =>
    let fh := min totalHeight (viewportHeight * (first :: rest).length)
    some ⟨first.width, fh, pasteOps viewportHeight fh 0 (first :: rest)⟩

/-- The image carried by a successful capture: either the native full-page
screenshot (line 145) or the stitched composite (line 214). -/
inductive CapturedImage where
  | native (img : Img)
  | stitched (c : Composite)
deriving DecidableEq

/-- The capture outcome together with the spec's `CaptureResult` metadata:
`isFullPage` and `sectionsCaptured` (`1` on the native path,
`len(screenshots)` on the stitched path). -/
structure CaptureResult where
  image : CapturedImage
  isFullPage : Bool
  sectionsCaptured : Nat
deriving DecidableEq

/-- Lines 128-224 of `capture_full_page_screenshot` after the page
dimensions are measured. `nativeShot` is the outcome of the native
full-page attempt of lines 129-145: `some img` when
`get_full_page_screenshot_as_png` succeeds (immediate return at line 145),
`none` when it raises `AttributeError` or `WebDriverException`, which the
handler at line 147 turns into the scroll-and-stitch path. `none` as the
overall result is the failure signal (Python returns `None`). -/
def capture_full_page_screenshot (nativeShot : Option Img)
    (totalHeight viewportHeight : Nat) (maxScroll : Option Int)
    (offs : Nat → Nat) (shot : Nat → Img) : Option CaptureResult :=
  match nativeShot with
  | some img => some ⟨CapturedImage.native img, true, 1⟩
  | none =>
    let shots := screenshots totalHeight viewportHeight maxScroll offs shot
    match stitch totalHeight viewportHeight shots with
    | none => none
    | some c => some ⟨CapturedImage.stitched c, true, shots.length⟩

/-- Environment model of a standards-conforming browser for claims that
need one: `window.scrollTo` clamps, so `window.pageYOffset` reads
`min(requested, totalHeight - viewportHeight)` — the spec's
`currentScrollOffset` "may differ from requested offset at document
end". -/
def clampedOffs (totalHeight viewportHeight : Nat) : Nat → Nat :=
  fun y => min y (totalHeight - viewportHeight)

/-- The step count the spec prescribes (section 4.2, step 4b):
`ceil(totalHeight / viewportHeight)`, written with natural division. -/
def ceilSteps (totalHeight viewportHeight : Nat) : Nat :=
  (totalHeight + viewportHeight - 1) / viewportHeight

end WebCapture

namespace DOMExtractor

/-- A DOM image record as produced by `DOMExtractor.extract_images` in
`src/utils/dom_extractor.py`: the fields `match_image_with_dom` reads
(`has_alt`, `empty_alt`) plus identifying metadata. -/
structure DomImage where
  src : String
  alt : String
  has_alt : Bool
  empty_alt : Bool
  is_background : Bool
deriving DecidableEq

/-- Lines 127-131 of `src/utils/dom_extractor.py`: the loop body of
`match_image_with_dom` — return the first list element with
`not img.get('has_alt', False) or img.get('empty_alt', False)`, else
`None`. -/
def firstWithoutAlt : List DomImage → Option DomImage
  | [] => none
  | img :: rest =>
    if !img.has_alt || img.empty_alt then some img else firstWithoutAlt rest

/-- Lines 107-131: `match_image_with_dom(image_region, dom_images,
viewport_width, viewport_height)`. The region and viewport arguments are
accepted but never read by the body. -/
def match_image_with_dom (imageRegion : Nat × Nat × Nat × Nat)
    (domImages : List DomImage) (viewportWidth viewportHeight : Nat) :
    Option DomImage :=
  firstWithoutAlt domImages

end DOMExtractor

namespace ColorBlindSimulator

/-- One RGB pixel of a `uint8` image, as handled by
`src/models/colorblind_simulator.py`. -/
structure Pixel where
  r : Nat
  g : Nat
  b : Nat
deriving DecidableEq

/-- An RGB image: dimensions plus the row-major pixel buffer (the reshape
to `(-1, 3)` at line 110 makes the transform act pixelwise, so a flat list
is faithful). -/
structure Image where
  width : Nat
  height : Nat
  pixels : List Pixel
deriving DecidableEq

/-- A 3×3 color transform matrix. The Python `float32` constants are
idealized as exact rationals. -/
structure Matrix3 where
  m00 : ℚ
  m01 : ℚ
  m02 : ℚ
  m10 : ℚ
  m11 : ℚ
  m12 : ℚ
  m20 : ℚ
  m21 : ℚ
  m22 : ℚ
deriving DecidableEq

/-- Matrix for protanopia (lines 39-43). -/
def protanopia_matrix : Matrix3 :=
  ⟨0.567, 0.433, 0, 0.558, 0.442, 0, 0, 0.242, 0.758⟩

/-- Matrix for deuteranopia (lines 46-50). -/
def deuteranopia_matrix : Matrix3 :=
  ⟨0.625, 0.375, 0, 0.7, 0.3, 0, 0, 0.3, 0.7⟩

/-- Matrix for tritanopia (lines 53-57). -/
def tritanopia_matrix : Matrix3 :=
  ⟨0.95, 0.05, 0, 0, 0.433, 0.567, 0, 0.475, 0.525⟩

/-- Matrix for achromatopsia (lines 62-66). -/
def achromatopsia_matrix : Matrix3 :=
  ⟨0.299, 0.587, 0.114, 0.299, 0.587, 0.114, 0.299, 0.587, 0.114⟩

/-- Line 117: `torch.clamp(transformed, 0, 255)`. -/
def clamp255 (x : ℚ) : ℚ :=
  max 0 (min x 255)

/-- Lines 110-121 acting on one pixel: `matmul(v, M.T)` is `M * v`
rowwise, then clamp to `[0, 255]` and truncate to `uint8`
(`astype(np.uint8)` after the clamp floors the nonnegative value). -/
def applyMatrix (m : Matrix3) (p : Pixel) : Pixel :=
  ⟨(⌊clamp255 (m.m00 * p.r + m.m01 * p.g + m.m02 * p.b)⌋).toNat,
   (⌊clamp255 (m.m10 * p.r + m.m11 * p.g + m.m12 * p.b)⌋).toNat,
   (⌊clamp255 (m.m20 * p.r + m.m21 * p.g + m.m22 * p.b)⌋).toNat⟩

/-- The whole-image transform of lines 110-124: pixelwise matrix
application, dimensions preserved. -/
def transformImage (m : Matrix3) (img : Image) : Image :=
  ⟨img.width, img.height, img.pixels.map (applyMatrix m)⟩

/-- Lines 69-124: `simulate_colorblindness(image, colorblind_type)` — the
dispatch of lines 87-95 selects the matrix; an unrecognized type logs a
warning and returns the input image unchanged (line 95). -/
def simulate_colorblindness (image : Image) (colorblind_type : String) :
    Image :=
  if colorblind_type = "protanopia" then
    transformImage protanopia_matrix image
  else if colorblind_type = "deuteranopia" then
    transformImage deuteranopia_matrix image
  else if colorblind_type = "tritanopia" then
    transformImage tritanopia_matrix image
  else if colorblind_type = "achromatopsia" then
    transformImage achromatopsia_matrix image
  else
    image

end ColorBlindSimulator

namespace WebCapture

/-! Helper lemmas about the scroll loop and the paste pass. -/

theorem captureLoop_length_le (vh : Nat) (offs : Nat → Nat) (shot : Nat → Img) :
    ∀ rem i last, (captureLoop vh offs shot rem i last).length ≤ rem := by
  intro rem
  induction rem with
  | zero => intro i last; simp [captureLoop]
  | succ r ih =>
    intro i last
    rw [captureLoop]
    by_cases h : offs (i * vh) = last ∧ 0 < i
    · simp [h]
    · simp only [if_neg h, List.length_cons]
      exact Nat.succ_le_succ (ih (i + 1) (offs (i * vh)))

theorem captureLoop_mem (vh : Nat) (offs : Nat → Nat) (shot : Nat → Img) :
    ∀ rem i last x, x ∈ captureLoop vh offs shot rem i last → ∃ j, x = shot j := by
  intro rem
  induction rem with
  | zero => intro i last x hx; simp [captureLoop] at hx
  | succ r ih =>
    intro i last x hx
    rw [captureLoop] at hx
    by_cases h : offs (i * vh) = last ∧ 0 < i
    · simp [h] at hx
    · rw [if_neg h] at hx
      rcases List.mem_cons.mp hx with h1 | h2
      · exact ⟨i, h1⟩
      · exact ih (i + 1) (offs (i * vh)) x h2

theorem captureLoop_zero_offs (vh : Nat) (offs : Nat → Nat) (shot : Nat → Img)
    (h0 : ∀ y, offs y = 0) :
    ∀ n, 0 < n → captureLoop vh offs shot n 0 0 = [shot 0] := by
  intro n hn
  match n, hn with
  | r + 1, _ =>
    rw [captureLoop]
    have hfalse : ¬ (offs (0 * vh) = 0 ∧ 0 < 0) := by simp
    rw [if_neg hfalse]
    match r with
    | 0 => rfl
    | s + 1 =>
      rw [captureLoop]
      rw [if_pos ⟨by rw [h0, h0], Nat.zero_lt_one⟩]

theorem captureLoop_first_break_aux (vh : Nat) (offs : Nat → Nat) (shot : Nat → Img)
    (i : Nat)
    (heq : offs (i * vh) = offs ((i - 1) * vh))
    (hmin : ∀ j, 0 < j → j < i → offs (j * vh) ≠ offs ((j - 1) * vh)) :
    ∀ d k rem, 0 < k → k + d = i → i < k + rem →
      captureLoop vh offs shot rem k (offs ((k - 1) * vh)) =
        (List.range' k d).map shot := by
  intro d
  induction d with
  | zero =>
    intro k rem hk hki hrem
    subst hki
    obtain ⟨r, rfl⟩ : ∃ r, rem = r + 1 := ⟨rem - 1, by omega⟩
    · rw [captureLoop]
      rw [if_pos ⟨heq, hk⟩]
      simp
  | succ d ih =>
    intro k rem hk hki hrem
    obtain ⟨r, rfl⟩ : ∃ r, rem = r + 1 := ⟨rem - 1, by omega⟩
    · rw [captureLoop]
      have hne : ¬ (offs (k * vh) = offs ((k - 1) * vh) ∧ 0 < k) := by
        intro hcon
        exact hmin k hk (by omega) hcon.1
      rw [if_neg hne]
      have hstep : captureLoop vh offs shot r (k + 1) (offs (k * vh)) =
          (List.range' (k + 1) d).map shot := by
        have := ih (k + 1) r (by omega) (by omega) (by omega)
        simpa using this
      rw [hstep]
      simp [List.range'_succ]

theorem captureLoop_first_break (vh : Nat) (offs : Nat → Nat) (shot : Nat → Img)
    (steps i : Nat) (hi : 0 < i) (hlt : i < steps)
    (heq : offs (i * vh) = offs ((i - 1) * vh))
    (hmin : ∀ j, 0 < j → j < i → offs (j * vh) ≠ offs ((j - 1) * vh)) :
    captureLoop vh offs shot steps 0 0 = (List.range i).map shot := by
  obtain ⟨r, rfl⟩ : ∃ r, steps = r + 1 := ⟨steps - 1, by omega⟩
  · rw [captureLoop]
    have hfalse : ¬ (offs (0 * vh) = 0 ∧ 0 < 0) := by simp
    rw [if_neg hfalse]
    have htail : captureLoop vh offs shot r 1 (offs (0 * vh)) =
        (List.range' 1 (i - 1)).map shot := by
      have h0 : offs (0 * vh) = offs ((1 - 1) * vh) := rfl
      rw [h0]
      exact captureLoop_first_break_aux vh offs shot i heq hmin (i - 1) 1 r
        Nat.one_pos (by omega) (by omega)
    rw [htail]
    have hrange : List.range i = 0 :: List.range' 1 (i - 1) := by
      rw [List.range_eq_range']
      match i, hi with
      | j + 1, _ => simp [List.range'_succ]
    rw [hrange]
    simp

theorem pasteOps_mem (vh fh : Nat) :
    ∀ (l : List Img) (i0 j : Nat) (hj : j < l.length),
      (i0 + j) * vh < fh →
      (⟨(i0 + j) * vh,
        min (l.get ⟨j, hj⟩).height (fh - (i0 + j) * vh),
        (l.get ⟨j, hj⟩).width⟩ : Paste) ∈ pasteOps vh fh i0 l := by
  intro l
  induction l with
  | nil => intro i0 j hj; simp at hj
  | cons a t ih =>
    intro i0 j hj hlt
    match j with
    | 0 =>
      rw [pasteOps]
      simp only [Nat.add_zero] at hlt ⊢
      rw [if_pos hlt]
      simp
    | j + 1 =>
      rw [pasteOps]
      apply List.mem_append_right
      have := ih (i0 + 1) j (by simpa using hj)
        (by simpa [Nat.add_assoc, Nat.add_comm 1 j] using hlt)
      simpa [Nat.add_assoc, Nat.add_comm 1 j] using this

end WebCapture

namespace WebCapture

theorem stitch_eq_some (th vh : Nat) (l : List Img) (c : Composite)
    (h : stitch th vh l = some c) :
    c.finalHeight = min th (vh * l.length) ∧
    c.pastes = pasteOps vh c.finalHeight 0 l ∧
    0 < l.length ∧
    ∀ hne : l ≠ [], c.finalWidth = (l.head hne).width := by
  cases l with
  | nil => simp [stitch] at h
  | cons a t =>
    rw [stitch] at h
    injection h with h
    subst h
    refine ⟨rfl, rfl, by simp, ?_⟩
    intro hne
    rfl

theorem stitch_eq_none (th vh : Nat) (l : List Img) :
    stitch th vh l = none ↔ l = [] := by
  cases l with
  | nil => simp [stitch]
  | cons a t => simp [stitch]

theorem capture_scroll_inv (th vh : Nat) (ms : Option Int) (offs : Nat → Nat)
    (shot : Nat → Img) (r : CaptureResult)
    (h : capture_full_page_screenshot none th vh ms offs shot = some r) :
    ∃ c : Composite,
      r = ⟨CapturedImage.stitched c, true,
        (screenshots th vh ms offs shot).length⟩ ∧
      stitch th vh (screenshots th vh ms offs shot) = some c ∧
      screenshots th vh ms offs shot ≠ [] := by
  cases hstitch : stitch th vh (screenshots th vh ms offs shot) with
  | none =>
    rw [capture_full_page_screenshot] at h
    simp only [hstitch] at h
    exact absurd h (by simp)
  | some c =>
    rw [capture_full_page_screenshot] at h
    simp only [hstitch] at h
    injection h with h
    refine ⟨c, h.symm, rfl, ?_⟩
    intro hnil
    rw [hnil] at hstitch
    simp [stitch] at hstitch

end WebCapture

namespace DOMExtractor

theorem firstWithoutAlt_some (l : List DomImage) (x : DomImage)
    (h : firstWithoutAlt l = some x) :
    (!x.has_alt || x.empty_alt) = true ∧
    ∃ l1 l2, l = l1 ++ x :: l2 ∧
      ∀ y ∈ l1, (!y.has_alt || y.empty_alt) = false := by
  induction l with
  | nil => simp [firstWithoutAlt] at h
  | cons a t ih =>
    rw [firstWithoutAlt] at h
    by_cases hp : (!a.has_alt || a.empty_alt) = true
    · rw [if_pos hp] at h
      injection h with h
      subst h
      exact ⟨hp, [], t, rfl, by simp⟩
    · rw [if_neg hp] at h
      obtain ⟨h1, l1, l2, heq, hall⟩ := ih h
      refine ⟨h1, a :: l1, l2, by simp [heq], ?_⟩
      intro y hy
      rcases List.mem_cons.mp hy with rfl | hy2
      · exact Bool.not_eq_true _ ▸ Bool.of_not_eq_true hp
      · exact hall y hy2

theorem firstWithoutAlt_none (l : List DomImage) :
    firstWithoutAlt l = none ↔ ∀ y ∈ l, (!y.has_alt || y.empty_alt) = false := by
  induction l with
  | nil => simp [firstWithoutAlt]
  | cons a t ih =>
    rw [firstWithoutAlt]
    by_cases hp : (!a.has_alt || a.empty_alt) = true
    · rw [if_pos hp]
      constructor
      · intro hc
        exact absurd hc (by simp)
      · intro hall
        have hfa := hall a (List.mem_cons_self a t)
        rw [hp] at hfa
        exact absurd hfa (by decide)
    · rw [if_neg hp]
      rw [ih]
      constructor
      · intro hall y hy
        rcases List.mem_cons.mp hy with rfl | hy2
        · exact Bool.of_not_eq_true hp
        · exact hall y hy2
      · intro hall y hy
        exact hall y (List.mem_cons_of_mem a hy)

end DOMExtractor

open WebCapture DOMExtractor

/-- C1: the claim states the planned step count is
`ceil(totalHeight / viewportHeight)`; the code computes
`totalHeight // viewportHeight + 1`, which exceeds the ceiling by one
exactly when `viewportHeight` divides `totalHeight`. At
`totalHeight = 2400 = 3 × 800 = 3 × viewportHeight` the loop plans 4
steps, not `ceil(2400/800) = 3`. -/
theorem C1_counterexample :
    ¬ plannedSteps 2400 800 none = (ceilSteps 2400 800 : Int) := by
  decide

/-- C1 (amended): the planned iteration bound is
`totalHeight / viewportHeight + 1`, which equals
`ceil(totalHeight / viewportHeight)` whenever `viewportHeight` does not
divide `totalHeight`, and exceeds it by one when it does (first two
conjuncts). Nevertheless, for a page with `totalHeight = 3 × viewportHeight`
and no `maxSections` cap, under a browser that clamps scroll offsets at the
document end, the stitched capture still produces exactly 3 sections and
`finalHeight = totalHeight`: the extra planned step is removed by early
termination (third conjunct). -/
theorem C1_theorem (vh : Nat) (shot : Nat → Img) (hvh : 0 < vh) :
    plannedSteps (3 * vh) vh none = (ceilSteps (3 * vh) vh : Int) + 1 ∧
    (∀ th : Nat, ¬ vh ∣ th →
      plannedSteps th vh none = (ceilSteps th vh : Int)) ∧
    ∃ c : Composite,
      capture_full_page_screenshot none (3 * vh) vh none
          (clampedOffs (3 * vh) vh) shot =
        some ⟨CapturedImage.stitched c, true, 3⟩ ∧
      c.finalHeight = 3 * vh := by
  have e1 : 3 * vh / vh = 3 := Nat.mul_div_cancel 3 hvh
  have e2 : (3 * vh + vh - 1) / vh = 3 := by
    apply Nat.div_eq_of_lt_le <;> omega
  refine ⟨?_, ?_, ?_⟩
  · simp [plannedSteps, scrollStepsRaw, ceilSteps, e1, e2]
  · intro th hnd
    have hmod : th % vh ≠ 0 := fun hc => hnd (Nat.dvd_iff_mod_eq_zero.mpr hc)
    have hdm := Nat.div_add_mod th vh
    have hltm : th % vh < vh := Nat.mod_lt th hvh
    have hsplit : th + vh - 1 = vh * (th / vh) + (th % vh + vh - 1) := by
      omega
    have hone : (th % vh + vh - 1) / vh = 1 := by
      apply Nat.div_eq_of_lt_le <;> omega
    have harith : (th + vh - 1) / vh = th / vh + 1 := by
      rw [hsplit, Nat.mul_add_div hvh, hone]
    simp [plannedSteps, scrollStepsRaw, ceilSteps, harith]
  · have hsteps : (plannedSteps (3 * vh) vh none).toNat = 4 := by
      simp [plannedSteps, scrollStepsRaw, e1]
    have hloop : screenshots (3 * vh) vh none (clampedOffs (3 * vh) vh) shot =
        [shot 0, shot 1, shot 2] := by
      rw [screenshots, hsteps]
      have hbreak := captureLoop_first_break vh (clampedOffs (3 * vh) vh) shot
        4 3 (by omega) (by omega)
        (by simp only [clampedOffs]; omega)
        (by
          intro j hj1 hj2
          interval_cases j <;> simp only [clampedOffs] <;> omega)
      rw [hbreak]
      rfl
    have hmin3 : min (3 * vh) (vh * 3) = 3 * vh := by omega
    refine ⟨⟨(shot 0).width, 3 * vh,
      pasteOps vh (3 * vh) 0 [shot 0, shot 1, shot 2]⟩, ?_, rfl⟩
    rw [capture_full_page_screenshot]
    simp only [hloop, stitch, List.length_cons, List.length_nil, hmin3]

/-- Witness for C1 at `viewportHeight = 800`, `totalHeight = 2400`. -/
theorem C1_witness :
    plannedSteps (3 * 800) 800 none = (ceilSteps (3 * 800) 800 : Int) + 1 ∧
    (∀ th : Nat, ¬ 800 ∣ th →
      plannedSteps th 800 none = (ceilSteps th 800 : Int)) ∧
    ∃ c : Composite,
      capture_full_page_screenshot none (3 * 800) 800 none
          (clampedOffs (3 * 800) 800) (fun _ => ⟨1920, 800⟩) =
        some ⟨CapturedImage.stitched c, true, 3⟩ ∧
      c.finalHeight = 3 * 800 :=
  C1_theorem 800 (fun _ => ⟨1920, 800⟩) (by decide)

/-- C2: whenever the scroll-and-stitch path returns a result, the composite
satisfies `finalHeight = min(totalHeight, viewportHeight × sectionsCaptured)`
and hence `finalHeight ≤ totalHeight`. -/
theorem C2_theorem (th vh : Nat) (ms : Option Int) (offs : Nat → Nat)
    (shot : Nat → Img) (r : CaptureResult)
    (h : capture_full_page_screenshot none th vh ms offs shot = some r) :
    ∃ c : Composite, r.image = CapturedImage.stitched c ∧
      c.finalHeight = min th (vh * r.sectionsCaptured) ∧
      c.finalHeight ≤ th := by
  obtain ⟨c, hr, hstitch, -⟩ := capture_scroll_inv th vh ms offs shot r h
  obtain ⟨hfh, -, -, -⟩ := stitch_eq_some th vh _ c hstitch
  subst hr
  exact ⟨c, rfl, hfh, hfh ▸ Nat.min_le_left _ _⟩

/-- Witness for C2 on the `totalHeight = 2000`, `viewportHeight = 800`
page with identity scrolling. -/
theorem C2_witness :
    ∃ c : Composite,
      (⟨CapturedImage.stitched ⟨1920, 2000,
          [⟨0, 800, 1920⟩, ⟨800, 800, 1920⟩, ⟨1600, 400, 1920⟩]⟩,
        true, 3⟩ : CaptureResult).image = CapturedImage.stitched c ∧
      c.finalHeight = min 2000 (800 * 3) ∧
      c.finalHeight ≤ 2000 :=
  C2_theorem 2000 800 none (fun y => y) (fun _ => ⟨1920, 800⟩) _ (by decide)

/-- C3: if iteration `i > 0` is the first whose measured offset equals the
offset recorded at the previous iteration, and `i` is below the planned
bound, the loop stops there: the section list is exactly the screenshots of
iterations `0..i-1`, so `sectionsCaptured = i` is strictly less than the
planned step count and no duplicate final section is appended. -/
theorem C3_theorem (th vh : Nat) (ms : Option Int) (offs : Nat → Nat)
    (shot : Nat → Img) (i : Nat) (hi : 0 < i)
    (hlt : i < (plannedSteps th vh ms).toNat)
    (heq : offs (i * vh) = offs ((i - 1) * vh))
    (hmin : ∀ j, j < i → 0 < j → offs (j * vh) ≠ offs ((j - 1) * vh)) :
    screenshots th vh ms offs shot = (List.range i).map shot ∧
    (screenshots th vh ms offs shot).length = i ∧
    (screenshots th vh ms offs shot).length < (plannedSteps th vh ms).toNat := by
  have hbreak := captureLoop_first_break vh offs shot
    (plannedSteps th vh ms).toNat i hi hlt heq
    (fun j h1 h2 => hmin j h2 h1)
  have hs : screenshots th vh ms offs shot = (List.range i).map shot := hbreak
  refine ⟨hs, by rw [hs]; simp, ?_⟩
  rw [hs]
  simpa using hlt

/-- Witness for C3: a page reporting `totalHeight = 4000` whose real
scrollable end is offset 1600, so the loop plans 6 steps but stops at
iteration 3. -/
theorem C3_witness :
    screenshots 4000 800 none (fun y => min y 1600) (fun _ => ⟨1920, 800⟩) =
      (List.range 3).map (fun _ => ⟨1920, 800⟩) ∧
    (screenshots 4000 800 none (fun y => min y 1600)
      (fun _ => ⟨1920, 800⟩)).length = 3 ∧
    (screenshots 4000 800 none (fun y => min y 1600)
      (fun _ => ⟨1920, 800⟩)).length < (plannedSteps 4000 800 none).toNat :=
  C3_theorem 4000 800 none (fun y => min y 1600) (fun _ => ⟨1920, 800⟩) 3
    (by decide) (by decide) (by decide)
    (by intro j hj1 hj2; interval_cases j <;> simp)

/-- C4: each section `i` is pasted at vertical offset
`i × viewportHeight`, clipped to `min(height, finalHeight - i × viewportHeight)`
(first conjunct); concretely, for `totalHeight = 2000`,
`viewportHeight = 800` and offsets progressing 0, 800, 1600, the capture has
3 sections, `finalHeight = min(2000, 2400) = 2000`, and the last section is
clipped to 400 pixels (second conjunct). -/
theorem C4_theorem :
    (∀ (th vh : Nat) (l : List Img) (c : Composite),
      stitch th vh l = some c →
      ∀ j (hj : j < l.length), j * vh < c.finalHeight →
        (⟨j * vh, min (l.get ⟨j, hj⟩).height (c.finalHeight - j * vh),
          (l.get ⟨j, hj⟩).width⟩ : Paste) ∈ c.pastes) ∧
    capture_full_page_screenshot none 2000 800 none (fun y => y)
        (fun _ => ⟨1920, 800⟩) =
      some ⟨CapturedImage.stitched ⟨1920, 2000,
          [⟨0, 800, 1920⟩, ⟨800, 800, 1920⟩, ⟨1600, 400, 1920⟩]⟩,
        true, 3⟩ := by
  constructor
  · intro th vh l c h j hj hlt
    obtain ⟨-, hp, -, -⟩ := stitch_eq_some th vh l c h
    rw [hp]
    have hmem := pasteOps_mem vh c.finalHeight l 0 j hj
      (by simpa using hlt)
    simpa using hmem
  · decide

/-- Witness for C4: the clipped 400-pixel paste of the last section is
among the composite's paste operations. -/
theorem C4_witness :
    (⟨1600, 400, 1920⟩ : Paste) ∈
      (⟨1920, 2000,
        [⟨0, 800, 1920⟩, ⟨800, 800, 1920⟩, ⟨1600, 400, 1920⟩]⟩ :
          Composite).pastes :=
  C4_theorem.1 2000 800 [⟨1920, 800⟩, ⟨1920, 800⟩, ⟨1920, 800⟩]
    ⟨1920, 2000, [⟨0, 800, 1920⟩, ⟨800, 800, 1920⟩, ⟨1600, 400, 1920⟩]⟩
    (by decide) 2 (by decide) (by decide)

/-- C5: for a page with `totalHeight ≤ viewportHeight` under a clamping
browser, the scroll-and-stitch path captures exactly one section and
returns a composite with `finalHeight = totalHeight`. -/
theorem C5_theorem (th vh : Nat) (shot : Nat → Img) (hle : th ≤ vh) :
    ∃ c : Composite,
      capture_full_page_screenshot none th vh none (clampedOffs th vh) shot =
        some ⟨CapturedImage.stitched c, true, 1⟩ ∧
      c.finalHeight = th := by
  have h0 : ∀ y, clampedOffs th vh y = 0 := by
    intro y
    simp only [clampedOffs]
    omega
  have hpos : 0 < (plannedSteps th vh none).toNat := by
    have hps : plannedSteps th vh none = ((scrollStepsRaw th vh : Nat) : Int) :=
      rfl
    rw [hps, Int.toNat_natCast]
    simp [scrollStepsRaw]
  have hloop : screenshots th vh none (clampedOffs th vh) shot = [shot 0] := by
    rw [screenshots]
    exact captureLoop_zero_offs vh _ shot h0 _ hpos
  have hminth : min th (vh * 1) = th := by omega
  refine ⟨⟨(shot 0).width, th, pasteOps vh th 0 [shot 0]⟩, ?_, rfl⟩
  rw [capture_full_page_screenshot]
  simp only [hloop, stitch, List.length_cons, List.length_nil, hminth]

/-- Witness for C5 at `totalHeight = 600 ≤ 800 = viewportHeight`. -/
theorem C5_witness :
    ∃ c : Composite,
      capture_full_page_screenshot none 600 800 none (clampedOffs 600 800)
          (fun _ => ⟨1920, 800⟩) =
        some ⟨CapturedImage.stitched c, true, 1⟩ ∧
      c.finalHeight = 600 :=
  C5_theorem 600 800 (fun _ => ⟨1920, 800⟩) (by decide)

/-- C6: if the loop captured zero sections the function returns the failure
signal (`none`, never an image); and every successful return holds a
composite with at least one section and strictly positive dimensions —
never a null or zero-size image. Positivity of the width assumes the
browser delivers screenshots of positive width. -/
theorem C6_theorem (th vh : Nat) (ms : Option Int) (offs : Nat → Nat)
    (shot : Nat → Img) (hth : 0 < th) (hvh : 0 < vh)
    (hw : ∀ i, 0 < (shot i).width) :
    (screenshots th vh ms offs shot = [] →
      capture_full_page_screenshot none th vh ms offs shot = none) ∧
    (∀ r, capture_full_page_screenshot none th vh ms offs shot = some r →
      ∃ c : Composite, r.image = CapturedImage.stitched c ∧
        0 < r.sectionsCaptured ∧ 0 < c.finalHeight ∧ 0 < c.finalWidth) := by
  constructor
  · intro hnil
    rw [capture_full_page_screenshot]
    simp [hnil, stitch]
  · intro r h
    obtain ⟨c, hr, hstitch, hne⟩ := capture_scroll_inv th vh ms offs shot r h
    obtain ⟨hfh, -, hlen, hwidth⟩ := stitch_eq_some th vh _ c hstitch
    subst hr
    refine ⟨c, rfl, ?_, ?_, ?_⟩
    · simpa using hlen
    · rw [hfh]
      have hpos : 0 < vh * (screenshots th vh ms offs shot).length :=
        Nat.mul_pos hvh hlen
      omega
    · have hhead := hwidth hne
      have hmem : (screenshots th vh ms offs shot).head hne ∈
          screenshots th vh ms offs shot := List.head_mem hne
      obtain ⟨j, hj⟩ := captureLoop_mem vh offs shot _ 0 0 _ hmem
      rw [hhead, hj]
      exact hw j

/-- Witness for C6: a negative `max_scroll` makes the Python loop run zero
times (`range` of a negative bound is empty), and the function then returns
the failure signal. -/
theorem C6_witness :
    capture_full_page_screenshot none 800 800 (some (-1)) (fun y => y)
      (fun _ => ⟨1920, 800⟩) = none :=
  (C6_theorem 800 800 (some (-1)) (fun y => y) (fun _ => ⟨1920, 800⟩)
    (by decide) (by decide) (fun i => by show (0 : Nat) < 1920; decide)).1
    (by decide)

/-- C7: when the native full-page attempt succeeds the capture returns
immediately with that image, `isFullPage = true` and
`sectionsCaptured = 1`; when it fails with the caught driver errors the
result is exactly the scroll-and-stitch outcome — no error is surfaced for
that branch. -/
theorem C7_theorem (img : Img) (th vh : Nat) (ms : Option Int)
    (offs : Nat → Nat) (shot : Nat → Img) :
    capture_full_page_screenshot (some img) th vh ms offs shot =
      some ⟨CapturedImage.native img, true, 1⟩ ∧
    capture_full_page_screenshot none th vh ms offs shot =
      Option.map
        (fun c => ⟨CapturedImage.stitched c, true,
          (screenshots th vh ms offs shot).length⟩)
        (stitch th vh (screenshots th vh ms offs shot)) := by
  refine ⟨rfl, ?_⟩
  cases hstitch : stitch th vh (screenshots th vh ms offs shot) with
  | none =>
    rw [capture_full_page_screenshot]
    simp [hstitch]
  | some c =>
    rw [capture_full_page_screenshot]
    simp [hstitch]

/-- C8: the claim as stated fails when the provided cap is `0`: Python's
`if max_scroll and ...` treats `0` as "no cap", so the capture with
`maxSections = 0` still takes 3 scroll steps instead of at most 0. -/
theorem C8_counterexample :
    ¬ (∀ r : CaptureResult,
        capture_full_page_screenshot none 2000 800 (some 0) (fun y => y)
          (fun _ => ⟨1920, 800⟩) = some r → r.sectionsCaptured ≤ 0) := by
  intro h
  have h3 := h ⟨CapturedImage.stitched ⟨1920, 2000,
    [⟨0, 800, 1920⟩, ⟨800, 800, 1920⟩, ⟨1600, 400, 1920⟩]⟩, true, 3⟩
    (by decide)
  exact absurd h3 (by decide)

/-- C8 (amended): if a positive `maxSections` cap is provided, the stitched
capture takes at most `maxSections` scroll steps, so
`sectionsCaptured ≤ maxSections` and
`finalHeight ≤ maxSections × viewportHeight`. -/
theorem C8_theorem (th vh : Nat) (m : Int) (offs : Nat → Nat)
    (shot : Nat → Img) (r : CaptureResult) (hm : 0 < m)
    (h : capture_full_page_screenshot none th vh (some m) offs shot = some r) :
    (r.sectionsCaptured : Int) ≤ m ∧
    ∀ c : Composite, r.image = CapturedImage.stitched c →
      (c.finalHeight : Int) ≤ m * vh := by
  obtain ⟨c, hr, hstitch, -⟩ := capture_scroll_inv th vh (some m) offs shot r h
  obtain ⟨hfh, -, -, -⟩ := stitch_eq_some th vh _ c hstitch
  have hlen : (screenshots th vh (some m) offs shot).length ≤
      (plannedSteps th vh (some m)).toNat :=
    captureLoop_length_le vh offs shot _ 0 0
  have hcap : (((plannedSteps th vh (some m)).toNat : Nat) : Int) ≤ m := by
    have hps : plannedSteps th vh (some m) =
        if m ≠ 0 ∧ ((scrollStepsRaw th vh : Nat) : Int) > m then m
        else ((scrollStepsRaw th vh : Nat) : Int) := rfl
    rw [hps]
    by_cases hc : m ≠ 0 ∧ ((scrollStepsRaw th vh : Nat) : Int) > m
    · rw [if_pos hc, Int.toNat_of_nonneg hm.le]
    · rw [if_neg hc, Int.toNat_natCast]
      have hm0 : m ≠ 0 := by omega
      have hng : ¬ ((scrollStepsRaw th vh : Nat) : Int) > m :=
        fun hgt => hc ⟨hm0, hgt⟩
      omega
  have hlm : (((screenshots th vh (some m) offs shot).length : Nat) : Int) ≤ m :=
    le_trans (by exact_mod_cast hlen) hcap
  subst hr
  constructor
  · exact hlm
  · intro c2 hc2
    simp only [CapturedImage.stitched.injEq] at hc2
    subst hc2
    have h1 : c.finalHeight ≤
        vh * (screenshots th vh (some m) offs shot).length :=
      hfh ▸ Nat.min_le_right _ _
    calc (c.finalHeight : Int)
        ≤ ((vh * (screenshots th vh (some m) offs shot).length : Nat) : Int) := by
          exact_mod_cast h1
      _ = (vh : Int) * ((screenshots th vh (some m) offs shot).length : Int) := by
          push_cast
          ring
      _ ≤ (vh : Int) * m := by
          exact mul_le_mul_of_nonneg_left hlm (by positivity)
      _ = m * vh := mul_comm _ _

/-- Witness for C8 at `maxSections = 2` on the 2000/800 page: 2 sections,
`finalHeight = 1600 ≤ 2 × 800`. -/
theorem C8_witness :
    (((⟨CapturedImage.stitched ⟨1920, 1600,
        [⟨0, 800, 1920⟩, ⟨800, 800, 1920⟩]⟩, true, 2⟩ :
          CaptureResult).sectionsCaptured : Nat) : Int) ≤ 2 ∧
    ∀ c : Composite,
      (⟨CapturedImage.stitched ⟨1920, 1600,
        [⟨0, 800, 1920⟩, ⟨800, 800, 1920⟩]⟩, true, 2⟩ :
          CaptureResult).image = CapturedImage.stitched c →
      (c.finalHeight : Int) ≤ 2 * 800 :=
  C8_theorem 2000 800 2 (fun y => y) (fun _ => ⟨1920, 800⟩)
    ⟨CapturedImage.stitched ⟨1920, 1600, [⟨0, 800, 1920⟩, ⟨800, 800, 1920⟩]⟩,
      true, 2⟩ (by decide) (by decide)

/-- C9: `match_image_with_dom` returns the first DOM image in list order
whose `has_alt` is false or whose `empty_alt` is true (first conjunct),
`none` exactly when no such image exists (second conjunct), and the result
is completely independent of the `image_region`, `viewport_width` and
`viewport_height` arguments (third conjunct). -/
theorem C9_theorem (region : Nat × Nat × Nat × Nat) (l : List DomImage)
    (vw vh : Nat) :
    (∀ x, match_image_with_dom region l vw vh = some x →
      (x.has_alt = false ∨ x.empty_alt = true) ∧
      ∃ l1 l2, l = l1 ++ x :: l2 ∧
        ∀ y ∈ l1, y.has_alt = true ∧ y.empty_alt = false) ∧
    (match_image_with_dom region l vw vh = none ↔
      ∀ y ∈ l, y.has_alt = true ∧ y.empty_alt = false) ∧
    (∀ (region2 : Nat × Nat × Nat × Nat) (vw2 vh2 : Nat),
      match_image_with_dom region l vw vh =
        match_image_with_dom region2 l vw2 vh2) := by
  refine ⟨?_, ?_, fun _ _ _ => rfl⟩
  · intro x hx
    obtain ⟨hpred, l1, l2, heq, hall⟩ := firstWithoutAlt_some l x hx
    refine ⟨by simpa using hpred, l1, l2, heq, ?_⟩
    intro y hy
    have hfa := hall y hy
    simpa using hfa
  · have hbase := firstWithoutAlt_none l
    constructor
    · intro h y hy
      have hfa := hbase.mp h y hy
      simpa using hfa
    · intro h
      apply hbase.mpr
      intro y hy
      have hy2 := h y hy
      simp [hy2.1, hy2.2]

/-- Witness for C9: in a two-element DOM list whose first image has proper
alt text and whose second lacks it, the second is matched. -/
theorem C9_witness :
    ((⟨"b.png", "", false, false, false⟩ : DomImage).has_alt = false ∨
      (⟨"b.png", "", false, false, false⟩ : DomImage).empty_alt = true) ∧
    ∃ l1 l2,
      [(⟨"a.png", "A", true, false, false⟩ : DomImage),
        ⟨"b.png", "", false, false, false⟩] =
        l1 ++ (⟨"b.png", "", false, false, false⟩ : DomImage) :: l2 ∧
      ∀ y ∈ l1, y.has_alt = true ∧ y.empty_alt = false :=
  (C9_theorem (0, 0, 0, 0)
    [⟨"a.png", "A", true, false, false⟩, ⟨"b.png", "", false, false, false⟩]
    1920 1080).1 ⟨"b.png", "", false, false, false⟩ (by decide)

/-- C10: `simulate_colorblindness` called with a deficiency type outside
the four recognized ones returns the input image unchanged, applying no
matrix. -/
theorem C10_theorem (img : ColorBlindSimulator.Image) (t : String)
    (h : t ∉ ["protanopia", "deuteranopia", "tritanopia", "achromatopsia"]) :
    ColorBlindSimulator.simulate_colorblindness img t = img := by
  simp only [List.mem_cons, List.not_mem_nil, or_false, not_or] at h
  obtain ⟨h1, h2, h3, h4⟩ := h
  simp [ColorBlindSimulator.simulate_colorblindness, h1, h2, h3, h4]

/-- Witness for C10 on a concrete 2×1 image and the unrecognized type
string "monochromacy". -/
theorem C10_witness :
    ColorBlindSimulator.simulate_colorblindness
      ⟨2, 1, [⟨10, 20, 30⟩, ⟨255, 0, 5⟩]⟩ "monochromacy" =
      ⟨2, 1, [⟨10, 20, 30⟩, ⟨255, 0, 5⟩]⟩ :=
  C10_theorem ⟨2, 1, [⟨10, 20, 30⟩, ⟨255, 0, 5⟩]⟩ "monochromacy" (by decide)
